import Mathlib

/-!
Verification of the browser-side form handler `submitForm` (src/app.js).

The handler reads a document URL and a comma-separated questions string,
validates them, shows a progressive loading indicator driven by a 1-second
repeating interval and a 5-second one-shot timeout, issues a single POST to
`/hackrx/run`, and renders the JSON answer or an error into the response box.

Modelling choices (shallow embedding):
* Strings are Lean `String`s; JS `split(",")`, `trim()` and `includes` are
  embedded at the character-list level (`jsSplit`, `jsTrim`, `jsIncludes`).
* The response box is modelled structurally (`BoxContent`) together with a
  `render` function producing the exact innerHTML template strings of the
  source; the elapsed-seconds span lookup of `updateTimer` becomes
  `timerSpanText`/`setTimerSpan`.
* The two timers are modelled by activity flags; the asynchronous callbacks
  that may run while `fetch` is awaited are an arbitrary list of `AsyncEv`
  steps (`tick` for the interval callback, `timeoutFire` for the one-shot),
  applied by `awaitStep`; a cleared timer's event is a no-op.
* `fetch` is an oracle value `FetchOutcome`: either a thrown error (with its
  JS type information) or a response with `ok` status, body text and the
  result of `.json()`.
* The handler itself (`submitForm`) returns the final state plus the ordered
  trace of its synchronous effects (alerts, renders, timer registrations,
  the network request, timer cancellations, console logging).
-/

/-- JS whitespace as used by `String.prototype.trim`, restricted to the
whitespace characters Lean models. -/
def isJsSpace (c : Char) : Bool := c.isWhitespace

/-- Character-level embedding of `questionsText.split(",")` (src/app.js line 32):
scan the characters, cutting a new piece at every comma.  As in JS,
`"".split(",")` yields `[""]` and a trailing comma yields a trailing `""`. -/
def splitAux : List Char → List Char → List (List Char)
  | [], acc => [acc.reverse]
  | c :: cs, acc => if c = ',' then acc.reverse :: splitAux cs [] else splitAux cs (c :: acc)

/-- `s.split(",")` from the source, as Lean strings. -/
def jsSplit (s : String) : List String := (splitAux s.data []).map String.mk

/-- Embedding of `q.trim()` (src/app.js line 32): drop whitespace from both ends. -/
def jsTrim (s : String) : String :=
  String.mk (((s.data.dropWhile isJsSpace).reverse.dropWhile isJsSpace).reverse)

/-- The question decomposition of src/app.js line 32:
`questionsText.split(",").map(q => q.trim()).filter(q => q)` — split on commas,
trim each piece, and keep only truthy (non-empty) pieces. -/
def parseQuestions (s : String) : List String :=
  ((jsSplit s).map jsTrim).filter (fun q => q ≠ "")

/-- Textbook split-on-separator, written to the spec sentence "split
`questionsText` on commas": independent of the accumulator-style `splitAux`. -/
def specSplitChars : List Char → List (List Char)
  | [] => [[]]
  | c :: cs =>
    if c = ',' then [] :: specSplitChars cs
    else
      match specSplitChars cs with
      | [] => [[c]]
      | p :: ps => (c :: p) :: ps

/-- The spec's question decomposition: "split `questionsText` on commas, trim
whitespace from each resulting piece, drop empty pieces, preserving order." -/
def specQuestions (s : String) : List String :=
  (((specSplitChars s.data).map String.mk).map jsTrim).filter (fun q => q ≠ "")

/-- Is `pat` an initial segment of `s`?  (Helper for `jsIncludes`.) -/
def startsWith : List Char → List Char → Bool
  | [], _ => true
  | _ :: _, [] => false
  | p :: ps, c :: cs => (p = c : Bool) && startsWith ps cs

/-- Helper for `jsIncludes`: does `pat` occur starting at some position of the list? -/
def jsIncludesAux (pat : List Char) : List Char → Bool
  | [] => startsWith pat []
  | c :: cs => startsWith pat (c :: cs) || jsIncludesAux pat cs

/-- Embedding of JS `s.includes(pat)` (src/app.js line 60). -/
def jsIncludes (s pat : String) : Bool := jsIncludesAux pat.data s.data

mutual
/-- JSON values, for the response body handed back by `queryRes.json()` and for
`JSON.stringify`.  Lists are inlined as mutual inductives so that the
pretty-printer below is structurally recursive. -/
inductive Json where
  | null : Json
  | bool (b : Bool) : Json
  | num (n : Int) : Json
  | str (s : String) : Json
  | arr (elems : JsonList) : Json
  | obj (fields : JsonFields) : Json

/-- A list of JSON values (array elements). -/
inductive JsonList where
  | nil : JsonList
  | cons (hd : Json) (tl : JsonList) : JsonList

/-- An association list of JSON object fields. -/
inductive JsonFields where
  | nil : JsonFields
  | cons (key : String) (val : Json) (tl : JsonFields) : JsonFields
end

/-- JSON string escaping as performed by `JSON.stringify` (quotes and backslashes;
other characters are passed through). -/
def escapeString (s : String) : String :=
  String.mk (s.data.foldr
    (fun c acc =>
      if c = '\"' then '\\' :: '\"' :: acc
      else if c = '\\' then '\\' :: '\\' :: acc
      else c :: acc) [])

/-- `n` spaces, the indentation unit of `JSON.stringify(_, null, 2)`. -/
def spacesN : Nat → String
  | 0 => ""
  | n + 1 => " " ++ spacesN n

mutual
/-- Embedding of `JSON.stringify(data, null, 2)` (src/app.js line 54): pretty-print
with two-space indentation, `ind` being the current indentation level. -/
def stringify2 (ind : Nat) : Json → String
  | .null => "null"
  | .bool true => "true"
  | .bool false => "false"
  | .num n => toString n
  | .str s => "\"" ++ escapeString s ++ "\""
  | .arr .nil => "[]"
  | .arr (.cons e es) =>
    "[\n" ++ String.intercalate ",\n" (stringifyElems (ind + 2) (.cons e es)) ++
      "\n" ++ spacesN ind ++ "]"
  | .obj .nil => "\x7b\x7d"
  | .obj (.cons k v fs) =>
    "\x7b\n" ++ String.intercalate ",\n" (stringifyMembers (ind + 2) (.cons k v fs)) ++
      "\n" ++ spacesN ind ++ "\x7d"

/-- The indented lines for the elements of a JSON array. -/
def stringifyElems (ind : Nat) : JsonList → List String
  | .nil => []
  | .cons e es => (spacesN ind ++ stringify2 ind e) :: stringifyElems ind es

/-- The indented `"key": value` lines for the fields of a JSON object. -/
def stringifyMembers (ind : Nat) : JsonFields → List String
  | .nil => []
  | .cons k v fs =>
    (spacesN ind ++ "\"" ++ escapeString k ++ "\": " ++ stringify2 ind v) ::
      stringifyMembers ind fs
end

/-- The single POST request of src/app.js lines 34–45.  `documents` and
`questions` are the two fields of the JSON-stringified body object. -/
structure Request where
  url : String
  method : String
  headers : List (String × String)
  documents : String
  questions : List String
deriving DecidableEq

/-- The request `submitForm` builds for the given inputs (src/app.js lines 32–45). -/
def theRequest (documentUrl questionsText : String) : Request :=
  { url := "/hackrx/run"
    method := "POST"
    headers := [("Content-Type", "application/json"),
                ("Authorization", "Bearer hackrx-secret-token"),
                ("Accept", "application/json")]
    documents := documentUrl
    questions := parseQuestions questionsText }

/-- A thrown JS error as observed by the `catch` branch: whether it is a
`TypeError`, and its `message`. -/
structure JsError where
  isTypeError : Bool
  message : String
deriving DecidableEq

/-- Result of `await queryRes.json()`: a parsed value, or a thrown parse error
with its message. -/
inductive JsonResult where
  | ok (data : Json) : JsonResult
  | fail (msg : String) : JsonResult

/-- An HTTP response as consumed by `submitForm`: the `ok` status flag, the body
text (`await queryRes.text()`), and the JSON parse of the body. -/
structure HttpResponse where
  ok : Bool
  bodyText : String
  json : JsonResult

/-- Oracle for the awaited `fetch` call: either the promise rejects with an
error, or a response arrives. -/
inductive FetchOutcome where
  | thrown (err : JsError) : FetchOutcome
  | responded (r : HttpResponse) : FetchOutcome

/-- Structured content of the response box.  `initial` is whatever markup the box
held before the invocation; the other constructors are the five innerHTML
assignments of the source, with the current text of the elapsed-seconds span
(`id='timerSpan'`) kept as data where the markup contains one. -/
inductive BoxContent where
  | initial (html : String) : BoxContent
  | thinking (spanText : String) : BoxContent
  | stillWorking (spanText : String) : BoxContent
  | answerBox (elapsed : Nat) (data : Json) : BoxContent
  | connectError : BoxContent
  | errorBox (msg : String) : BoxContent

/-- The innerHTML string each `BoxContent` stands for, matching the source's
template literals character for character. -/
def render : BoxContent → String
  | .initial html => html
  | .thinking t =>
    "<span class=\"loader\"></span> <span>Thinking... Please wait while we " ++
      "analyze your document and questions. <span id=\x27timerSpan\x27>" ++ t ++
      "</span></span>"
  | .stillWorking t =>
    "<span class=\"loader\"></span> <span>Still working... This may take a few " ++
      "more seconds for large documents or complex questions.<br><span " ++
      "class=\x27waiting-msg\x27>Thank you for your patience!</span> " ++
      "<span id=\x27timerSpan\x27>" ++ t ++ "</span></span>"
  | .answerBox elapsed data =>
    "<div style=\"margin-bottom:8px;color:var(--accent);font-size:0.98em;\">" ++
      "⏱️ Answer loaded in <b>" ++ toString elapsed ++ "s</b></div><pre>" ++
      stringify2 0 data ++ "</pre>"
  | .connectError =>
    "<b style=\"color:red\">❌ Error:</b> Could not connect to backend server."
  | .errorBox msg => "<b style=\"color:red\">❌ Error:</b> " ++ msg

/-- `document.getElementById(\x27timerSpan\x27)`, then `.textContent`: the text of
the elapsed-seconds span if the box's markup contains one, else `none`. -/
def timerSpanText : BoxContent → Option String
  | .thinking t => some t
  | .stillWorking t => some t
  | _ => none

/-- Assignment to the span's `textContent`: replaces the span text when the
markup has the span, and does nothing otherwise. -/
def setTimerSpan (box : BoxContent) (t : String) : BoxContent :=
  match box with
  | .thinking _ => .thinking t
  | .stillWorking _ => .stillWorking t
  | other => other

/-- `updateTimer` (src/app.js lines 14–17): look up the span by id; only if the
element exists, set its text to `timer + "s"`. -/
def updateTimer (timer : Nat) (box : BoxContent) : BoxContent :=
  match timerSpanText box with
  | some _ => setTimerSpan box (toString timer ++ "s")
  | none => box

/-- The mutable state of one invocation: the response box, the closure variable
`timer`, and whether the interval / one-shot timeout are still scheduled. -/
structure HandlerState where
  box : BoxContent
  timer : Nat
  intervalActive : Bool
  timeoutActive : Bool

/-- An asynchronous callback that may run while `fetch` is awaited: one firing
of the 1-second interval, or the firing of the 5-second one-shot timeout. -/
inductive AsyncEv where
  | tick : AsyncEv
  | timeoutFire : AsyncEv
deriving DecidableEq

/-- Semantics of one asynchronous callback.  The interval callback
(src/app.js lines 21–24) increments `timer` and runs `updateTimer`; the timeout
callback (lines 26–29) replaces the box with the "still working" markup (whose
template interpolates the current `timer`) and runs `updateTimer`.  A cancelled
timer's callback never runs: with the flag cleared the event is a no-op. -/
def awaitStep (s : HandlerState) : AsyncEv → HandlerState
  | .tick =>
    if s.intervalActive then
      { s with timer := s.timer + 1, box := updateTimer (s.timer + 1) s.box }
    else s
  | .timeoutFire =>
    if s.timeoutActive then
      { s with timeoutActive := false
               box := updateTimer s.timer (.stillWorking (toString s.timer ++ "s")) }
    else s

/-- Run a finite schedule of asynchronous callbacks. -/
def runAwait (s : HandlerState) (sched : List AsyncEv) : HandlerState :=
  sched.foldl awaitStep s

/-- One synchronous effect of the handler, in program order. -/
inductive Event where
  | alertEv (msg : String) : Event
  | renderEv (html : String) : Event
  | setIntervalEv (delayMs : Nat) : Event
  | setTimeoutEv (delayMs : Nat) : Event
  | fetchEv (req : Request) : Event
  | clearTimeoutEv : Event
  | clearIntervalEv : Event
  | consoleErrorEv (err : JsError) : Event

/-- The `catch` branch (src/app.js lines 56–65): log the error, cancel both
timers, then render either the fixed connectivity message (for a `TypeError`
whose message includes "Failed to fetch") or the error's message. -/
def catchBranch (err : JsError) (s : HandlerState) : HandlerState × List Event :=
  let box :=
    if err.isTypeError && jsIncludes err.message "Failed to fetch" then
      BoxContent.connectError
    else BoxContent.errorBox err.message
  ({ s with timeoutActive := false, intervalActive := false, box := box },
   [.consoleErrorEv err, .clearTimeoutEv, .clearIntervalEv, .renderEv (render box)])

/-- What happens once the awaited `fetch` settles (src/app.js lines 47–65):
a non-ok status throws `Error("Query failed: " + body)`; an ok status parses the
body as JSON, and on success cancels both timers and renders the answer; every
thrown error (rejection, the status error, a parse error) reaches `catchBranch`. -/
def finishPhase (s : HandlerState) : FetchOutcome → HandlerState × List Event
  | .thrown err => catchBranch err s
  | .responded r =>
    if r.ok then
      match r.json with
      | .ok data =>
        ({ s with timeoutActive := false, intervalActive := false
                  box := .answerBox s.timer data },
         [.clearTimeoutEv, .clearIntervalEv,
          .renderEv (render (.answerBox s.timer data))])
      | .fail m => catchBranch { isTypeError := false, message := m } s
    else
      catchBranch { isTypeError := false, message := "Query failed: " ++ r.bodyText } s

/-- The validation alert text (src/app.js line 7). -/
def validationAlert : String := "Please enter a document URL and your questions."

/-- The state at the start of the await: "thinking" markup just rendered with a
fresh `0s` span, `timer` reset to `0`, both timers scheduled
(src/app.js lines 19–29). -/
def startState : HandlerState :=
  { box := .thinking "0s", timer := 0, intervalActive := true, timeoutActive := true }

/-- The handler's path after validation passes (src/app.js lines 19–65): render
the "thinking" markup, register the 1000 ms interval and the 5000 ms one-shot
timeout, issue the request, let the scheduled callbacks run while `fetch` is
awaited, then finish on the outcome. -/
def submitRun (documentUrl questionsText : String)
    (sched : List AsyncEv) (out : FetchOutcome) : HandlerState × List Event :=
  let fin := finishPhase (runAwait startState sched) out
  (fin.1,
   [.renderEv (render (.thinking "0s")), .setIntervalEv 1000, .setTimeoutEv 5000,
    .fetchEv (theRequest documentUrl questionsText)] ++ fin.2)

/-- The whole handler (src/app.js lines 1–66).  Inputs: the two field values and
the box's prior content; oracles: the schedule of timer callbacks that run while
`fetch` is awaited and the fetch outcome.  Returns the final state and the
ordered trace of synchronous effects.  An empty (falsy) field aborts with an
alert before any timer or network activity (src/app.js lines 6–9). -/
def submitForm (documentUrl questionsText : String) (box0 : BoxContent)
    (sched : List AsyncEv) (out : FetchOutcome) : HandlerState × List Event :=
  if documentUrl = "" ∨ questionsText = "" then
    ({ box := box0, timer := 0, intervalActive := false, timeoutActive := false },
     [.alertEv validationAlert])
  else
    submitRun documentUrl questionsText sched out

/-- The network requests recorded in a trace. -/
def requestsOf (evs : List Event) : List Request :=
  evs.filterMap fun e => match e with | .fetchEv r => some r | _ => none

/-- The alerts recorded in a trace. -/
def alertsOf (evs : List Event) : List String :=
  evs.filterMap fun e => match e with | .alertEv m => some m | _ => none

/-- The console-logged errors recorded in a trace. -/
def consoleErrorsOf (evs : List Event) : List JsError :=
  evs.filterMap fun e => match e with | .consoleErrorEv err => some err | _ => none

/-- The timer registrations recorded in a trace (interval and timeout delays). -/
def timerStartsOf (evs : List Event) : List (Bool × Nat) :=
  evs.filterMap fun e =>
    match e with
    | .setIntervalEv d => some (true, d)
    | .setTimeoutEv d => some (false, d)
    | _ => none

/-- The error message rendered in the box, when the box is the error markup. -/
def errMsgOf : BoxContent → Option String
  | .errorBox m => some m
  | _ => none

/-- The spec's sample success body: the JSON value `\x7b"answers":["x"]\x7d`. -/
def sampleAnswers : Json :=
  Json.obj (.cons "answers" (Json.arr (.cons (.str "x") .nil)) .nil)

/-! ### Lemmas about the question decomposition -/

theorem specSplitChars_ne_nil (l : List Char) : specSplitChars l ≠ [] := by
  cases l with
  | nil => simp [specSplitChars]
  | cons c cs =>
    by_cases h : c = ','
    · simp [specSplitChars, h]
    · simp only [specSplitChars, if_neg h]
      cases specSplitChars cs with
      | nil => simp
      | cons p ps => simp

theorem splitAux_spec (l : List Char) : ∀ (acc p : List Char) (ps : List (List Char)),
    specSplitChars l = p :: ps → splitAux l acc = (acc.reverse ++ p) :: ps := by
  induction l with
  | nil =>
    intro acc p ps h
    simp only [specSplitChars] at h
    cases h
    simp [splitAux]
  | cons c cs ih =>
    intro acc p ps h
    by_cases hc : c = ','
    · subst hc
      simp only [specSplitChars, if_pos rfl] at h
      cases h
      obtain ⟨q, qs, hq⟩ : ∃ q qs, specSplitChars cs = q :: qs := by
        cases hcs : specSplitChars cs with
        | nil => exact absurd hcs (specSplitChars_ne_nil cs)
        | cons q qs => exact ⟨q, qs, rfl⟩
      simp only [splitAux, if_pos rfl]
      rw [ih [] q qs hq, hq]
      simp
    · obtain ⟨q, qs, hq⟩ : ∃ q qs, specSplitChars cs = q :: qs := by
        cases hcs : specSplitChars cs with
        | nil => exact absurd hcs (specSplitChars_ne_nil cs)
        | cons q qs => exact ⟨q, qs, rfl⟩
      simp only [specSplitChars, if_neg hc, hq] at h
      cases h
      simp only [splitAux, if_neg hc]
      rw [ih (c :: acc) q ps hq]
      simp

theorem jsSplit_spec (s : String) : jsSplit s = (specSplitChars s.data).map String.mk := by
  obtain ⟨p, ps, h⟩ : ∃ p ps, specSplitChars s.data = p :: ps := by
    cases hh : specSplitChars s.data with
    | nil => exact absurd hh (specSplitChars_ne_nil _)
    | cons p ps => exact ⟨p, ps, rfl⟩
  rw [jsSplit, splitAux_spec s.data [] p ps h, h]
  simp

theorem parseQuestions_eq_spec (s : String) : parseQuestions s = specQuestions s := by
  simp only [parseQuestions, specQuestions, jsSplit_spec]

theorem splitAux_allSpace (l : List Char) : ∀ acc : List Char,
    (∀ c ∈ l, c = ',' ∨ isJsSpace c) → (∀ c ∈ acc, isJsSpace c) →
    ∀ piece ∈ splitAux l acc, ∀ c ∈ piece, isJsSpace c := by
  induction l with
  | nil =>
    intro acc _ hacc piece hp c hc
    simp only [splitAux, List.mem_singleton] at hp
    subst hp
    exact hacc c (List.mem_reverse.mp hc)
  | cons d ds ih =>
    intro acc hl hacc piece hp c hc
    by_cases hd : d = ','
    · simp only [splitAux, if_pos hd, List.mem_cons] at hp
      rcases hp with hp | hp
      · subst hp
        exact hacc c (List.mem_reverse.mp hc)
      · exact ih [] (fun x hx => hl x (List.mem_cons_of_mem d hx)) (by simp) piece hp c hc
    · simp only [splitAux, if_neg hd] at hp
      have hds : isJsSpace d := by
        rcases hl d (List.mem_cons_self d ds) with h | h
        · exact absurd h hd
        · exact h
      refine ih (d :: acc) (fun x hx => hl x (List.mem_cons_of_mem d hx)) ?_ piece hp c hc
      intro x hx
      rcases List.mem_cons.mp hx with h | h
      · exact h ▸ hds
      · exact hacc x h

theorem jsTrim_allSpace (l : List Char) (h : ∀ c ∈ l, isJsSpace c) :
    jsTrim (String.mk l) = "" := by
  have h1 : l.dropWhile isJsSpace = [] := List.dropWhile_eq_nil_iff.mpr h
  show String.mk (((l.dropWhile isJsSpace).reverse.dropWhile isJsSpace).reverse) = ""
  rw [h1]
  rfl

theorem parseQuestions_sep_space (s : String)
    (h : ∀ c ∈ s.data, c = ',' ∨ isJsSpace c) : parseQuestions s = [] := by
  rw [parseQuestions]
  refine List.filter_eq_nil_iff.mpr ?_
  intro a ha
  simp only [List.mem_map, jsSplit] at ha
  obtain ⟨q, ⟨piece, hpiece, rfl⟩, rfl⟩ := ha
  have : jsTrim (String.mk piece) = "" :=
    jsTrim_allSpace piece (splitAux_allSpace s.data [] h (by simp) piece hpiece)
  simp [this]

/-! ### Lemmas about substring search -/

theorem startsWith_self : ∀ p : List Char, startsWith p p = true
  | [] => rfl
  | c :: cs => by
    simp only [startsWith, startsWith_self cs, Bool.and_true, decide_eq_true_eq]

theorem jsIncludesAux_self (pat : List Char) : jsIncludesAux pat pat = true := by
  cases pat with
  | nil => rfl
  | cons c cs =>
    simp only [jsIncludesAux, startsWith_self, Bool.true_or]

theorem jsIncludesAux_suffix : ∀ (pre pat : List Char), jsIncludesAux pat (pre ++ pat) = true
  | [], pat => by simpa using jsIncludesAux_self pat
  | c :: cs, pat => by
    rw [List.cons_append, jsIncludesAux, jsIncludesAux_suffix cs pat, Bool.or_true]

/-- Concatenation-shape instance of JS `includes`: a string of the form
`a ++ (c ++ b)` includes `b`. -/
theorem jsIncludes_suffix (a c b : String) : jsIncludes (a ++ (c ++ b)) b = true := by
  show jsIncludesAux b.data (a ++ (c ++ b)).data = true
  rw [String.data_append, String.data_append, ← List.append_assoc]
  exact jsIncludesAux_suffix (a.data ++ c.data) b.data

/-! ### Lemmas about the timers and the await phase -/

theorem awaitStep_inactive (s : HandlerState) (h1 : s.intervalActive = false)
    (h2 : s.timeoutActive = false) (ev : AsyncEv) : awaitStep s ev = s := by
  cases ev <;> simp [awaitStep, h1, h2]

theorem runAwait_inactive (s : HandlerState) (h1 : s.intervalActive = false)
    (h2 : s.timeoutActive = false) : ∀ sched, runAwait s sched = s := by
  intro sched
  induction sched with
  | nil => rfl
  | cons ev evs ih =>
    show List.foldl awaitStep (awaitStep s ev) evs = s
    rw [awaitStep_inactive s h1 h2 ev]
    exact ih

theorem runAwait_ticks_thinking (k : Nat) : ∀ (n : Nat) (b : Bool),
    runAwait ⟨.thinking (toString n ++ "s"), n, true, b⟩ (List.replicate k .tick) =
      ⟨.thinking (toString (n + k) ++ "s"), n + k, true, b⟩ := by
  induction k with
  | zero => intro n b; rfl
  | succ k ih =>
    intro n b
    rw [List.replicate_succ]
    show runAwait (awaitStep ⟨.thinking (toString n ++ "s"), n, true, b⟩ .tick)
        (List.replicate k .tick) = _
    have h1 : awaitStep ⟨.thinking (toString n ++ "s"), n, true, b⟩ .tick =
        ⟨.thinking (toString (n + 1) ++ "s"), n + 1, true, b⟩ := by
      simp [awaitStep, updateTimer, timerSpanText, setTimerSpan]
    rw [h1, ih (n + 1) b]
    have : n + 1 + k = n + (k + 1) := by omega
    rw [this]

theorem runAwait_ticks_still (k : Nat) : ∀ (n : Nat) (b : Bool),
    runAwait ⟨.stillWorking (toString n ++ "s"), n, true, b⟩ (List.replicate k .tick) =
      ⟨.stillWorking (toString (n + k) ++ "s"), n + k, true, b⟩ := by
  induction k with
  | zero => intro n b; rfl
  | succ k ih =>
    intro n b
    rw [List.replicate_succ]
    show runAwait (awaitStep ⟨.stillWorking (toString n ++ "s"), n, true, b⟩ .tick)
        (List.replicate k .tick) = _
    have h1 : awaitStep ⟨.stillWorking (toString n ++ "s"), n, true, b⟩ .tick =
        ⟨.stillWorking (toString (n + 1) ++ "s"), n + 1, true, b⟩ := by
      simp [awaitStep, updateTimer, timerSpanText, setTimerSpan]
    rw [h1, ih (n + 1) b]
    have : n + 1 + k = n + (k + 1) := by omega
    rw [this]

/-! ### Lemmas about the completion phase and the handler's trace -/

theorem catchBranch_flags (err : JsError) (s : HandlerState) :
    (catchBranch err s).1.intervalActive = false ∧ (catchBranch err s).1.timeoutActive = false :=
  ⟨rfl, rfl⟩

theorem finishPhase_flags (s : HandlerState) (out : FetchOutcome) :
    (finishPhase s out).1.intervalActive = false ∧ (finishPhase s out).1.timeoutActive = false := by
  cases out with
  | thrown err => exact catchBranch_flags err s
  | responded r =>
    by_cases hok : r.ok
    · cases hj : r.json with
      | ok data => simp [finishPhase, hok, hj]
      | fail m => simp only [finishPhase, if_pos hok, hj]; exact catchBranch_flags _ s
    · simp only [finishPhase, if_neg hok]; exact catchBranch_flags _ s

theorem finishPhase_tail (s : HandlerState) (out : FetchOutcome) :
    ∃ pre h, (finishPhase s out).2 =
      pre ++ [Event.clearTimeoutEv, Event.clearIntervalEv, Event.renderEv h] := by
  cases out with
  | thrown err => exact ⟨[Event.consoleErrorEv err], _, rfl⟩
  | responded r =>
    by_cases hok : r.ok
    · cases hj : r.json with
      | ok data =>
        refine ⟨[], render (.answerBox s.timer data), ?_⟩
        simp [finishPhase, hok, hj]
      | fail m =>
        refine ⟨[Event.consoleErrorEv ⟨false, m⟩], render (.errorBox m), ?_⟩
        simp only [finishPhase, if_pos hok, hj]
        rfl
    · refine ⟨[Event.consoleErrorEv ⟨false, "Query failed: " ++ r.bodyText⟩],
        render (.errorBox ("Query failed: " ++ r.bodyText)), ?_⟩
      simp only [finishPhase, if_neg hok]
      rfl

theorem requestsOf_finish (s : HandlerState) (out : FetchOutcome) :
    requestsOf (finishPhase s out).2 = [] := by
  cases out with
  | thrown err => rfl
  | responded r =>
    by_cases hok : r.ok
    · cases hj : r.json with
      | ok data => simp [finishPhase, hok, hj, requestsOf]
      | fail m => simp only [finishPhase, if_pos hok, hj]; rfl
    · simp only [finishPhase, if_neg hok]; rfl

theorem requestsOf_append (l1 l2 : List Event) :
    requestsOf (l1 ++ l2) = requestsOf l1 ++ requestsOf l2 :=
  List.filterMap_append l1 l2 _

theorem submitRun_trace (du qt : String) (sched : List AsyncEv) (out : FetchOutcome) :
    (submitRun du qt sched out).2 =
      [.renderEv (render (.thinking "0s")), .setIntervalEv 1000, .setTimeoutEv 5000,
       .fetchEv (theRequest du qt)] ++ (finishPhase (runAwait startState sched) out).2 := rfl

theorem submit_requests (du qt : String) (box0 : BoxContent) (sched : List AsyncEv)
    (out : FetchOutcome) (hdu : du ≠ "") (hqt : qt ≠ "") :
    requestsOf (submitForm du qt box0 sched out).2 = [theRequest du qt] := by
  have hne : ¬(du = "" ∨ qt = "") := not_or.mpr ⟨hdu, hqt⟩
  simp only [submitForm, if_neg hne]
  rw [submitRun_trace, requestsOf_append, requestsOf_finish]
  rfl

/-! ### The claims -/

/-- Claim C1: for every non-empty `documentUrl` and non-empty `questionsText`,
`submitForm` issues exactly one POST request to `/hackrx/run` with the
Content-Type, Authorization and Accept headers of the source, and a body whose
`documents` field equals `documentUrl` and whose `questions` field equals the
comma-split, trimmed, empty-filtered decomposition of `questionsText`. -/
theorem claim1_single_request (du qt : String) (box0 : BoxContent) (sched : List AsyncEv)
    (out : FetchOutcome) (hdu : du ≠ "") (hqt : qt ≠ "") :
    requestsOf (submitForm du qt box0 sched out).2 =
      [{ url := "/hackrx/run", method := "POST",
         headers := [("Content-Type", "application/json"),
                     ("Authorization", "Bearer hackrx-secret-token"),
                     ("Accept", "application/json")],
         documents := du, questions := specQuestions qt }] := by
  rw [submit_requests du qt box0 sched out hdu hqt]
  simp only [theRequest, parseQuestions_eq_spec]

/-- Witness for C1 at `documentUrl = "http://doc"`, `questionsText = "a,b"`. -/
theorem claim1_witness :
    requestsOf (submitForm "http://doc" "a,b" (.initial "") [] (.thrown ⟨false, "m"⟩)).2 =
      [{ url := "/hackrx/run", method := "POST",
         headers := [("Content-Type", "application/json"),
                     ("Authorization", "Bearer hackrx-secret-token"),
                     ("Accept", "application/json")],
         documents := "http://doc", questions := specQuestions "a,b" }] :=
  claim1_single_request "http://doc" "a,b" (.initial "") [] (.thrown ⟨false, "m"⟩)
    (by decide) (by decide)

/-- Claim C2: for every `questionsText`, the derived questions sequence equals
the spec's decomposition (split on commas, trim each piece, drop empty pieces,
order preserved, duplicates retained); in particular `"a, b ,,c"` yields
`["a", "b", "c"]`. -/
theorem claim2_question_decomposition :
    (∀ s : String, parseQuestions s = specQuestions s) ∧
    parseQuestions "a, b ,,c" = ["a", "b", "c"] :=
  ⟨parseQuestions_eq_spec, by decide⟩

/-- Claim C3: if `documentUrl` or `questionsText` is empty, `submitForm` aborts
right after the alert: its trace is the single alert event (hence no network
call and no timer start) and the response box still holds its prior content. -/
theorem claim3_validation_abort (du qt : String) (box0 : BoxContent) (sched : List AsyncEv)
    (out : FetchOutcome) (h : du = "" ∨ qt = "") :
    (submitForm du qt box0 sched out).2 = [Event.alertEv validationAlert] ∧
    (submitForm du qt box0 sched out).1.box = box0 ∧
    requestsOf (submitForm du qt box0 sched out).2 = [] ∧
    timerStartsOf (submitForm du qt box0 sched out).2 = [] := by
  have heq : submitForm du qt box0 sched out =
      ({ box := box0, timer := 0, intervalActive := false, timeoutActive := false },
       [Event.alertEv validationAlert]) := by
    simp only [submitForm, if_pos h]
  rw [heq]
  exact ⟨rfl, rfl, rfl, rfl⟩

/-- Witness for C3 at `documentUrl = ""`, `questionsText = "q"`. -/
theorem claim3_witness :
    (submitForm "" "q" (.initial "<p>old</p>") [] (.thrown ⟨false, "m"⟩)).2 =
      [Event.alertEv validationAlert] ∧
    (submitForm "" "q" (.initial "<p>old</p>") [] (.thrown ⟨false, "m"⟩)).1.box =
      BoxContent.initial "<p>old</p>" ∧
    requestsOf (submitForm "" "q" (.initial "<p>old</p>") [] (.thrown ⟨false, "m"⟩)).2 = [] ∧
    timerStartsOf (submitForm "" "q" (.initial "<p>old</p>") [] (.thrown ⟨false, "m"⟩)).2 = [] :=
  claim3_validation_abort "" "q" (.initial "<p>old</p>") [] (.thrown ⟨false, "m"⟩) (Or.inl rfl)

/-- Claim C9: a `questionsText` made only of commas and whitespace is truthy, so
validation passes and the request is still issued, with an empty `questions`
array — emptiness of the derived list is never checked. -/
theorem claim9_blank_questions (du qt : String) (box0 : BoxContent) (sched : List AsyncEv)
    (out : FetchOutcome) (hdu : du ≠ "") (hqt : qt ≠ "")
    (hcs : ∀ c ∈ qt.data, c = ',' ∨ isJsSpace c) :
    requestsOf (submitForm du qt box0 sched out).2 =
      [{ url := "/hackrx/run", method := "POST",
         headers := [("Content-Type", "application/json"),
                     ("Authorization", "Bearer hackrx-secret-token"),
                     ("Accept", "application/json")],
         documents := du, questions := ([] : List String) }] := by
  rw [submit_requests du qt box0 sched out hdu hqt]
  simp only [theRequest, parseQuestions_sep_space qt hcs]

/-- Witness for C9 at `questionsText = ", ,,"`. -/
theorem claim9_witness :
    requestsOf (submitForm "http://doc" ", ,," (.initial "") [] (.thrown ⟨false, "m"⟩)).2 =
      [{ url := "/hackrx/run", method := "POST",
         headers := [("Content-Type", "application/json"),
                     ("Authorization", "Bearer hackrx-secret-token"),
                     ("Accept", "application/json")],
         documents := "http://doc", questions := ([] : List String) }] :=
  claim9_blank_questions "http://doc" ", ,," (.initial "") [] (.thrown ⟨false, "m"⟩)
    (by decide) (by decide) (by decide)

/-- Claim C10: the timer-tick callback `updateTimer` looks up the
elapsed-seconds element first and mutates only if it exists; when no element
with id `timerSpan` is present the box is left untouched (and, being a total
function, the callback cannot throw). -/
theorem claim10_updateTimer_safe (timer : Nat) (box : BoxContent)
    (h : timerSpanText box = none) : updateTimer timer box = box := by
  simp [updateTimer, h]

/-- Witness for C10 at the final error markup, which has no `timerSpan`. -/
theorem claim10_witness :
    timerSpanText (BoxContent.errorBox "boom") = none ∧
    updateTimer 3 (BoxContent.errorBox "boom") = BoxContent.errorBox "boom" :=
  ⟨rfl, claim10_updateTimer_safe 3 (BoxContent.errorBox "boom") rfl⟩

/-- Claim C4: on every invocation that reaches a terminal render, the trace ends
with `clearTimeout`, `clearInterval` and then the terminal render, and in the
final state both timers are inactive, so any further timer events leave the
state (in particular the elapsed-seconds span) unchanged — on every exit path:
success, HTTP error, parse error, or network error. -/
theorem claim4_timers_cancelled (du qt : String) (box0 : BoxContent) (sched : List AsyncEv)
    (out : FetchOutcome) (hdu : du ≠ "") (hqt : qt ≠ "") :
    (∃ pre h, (submitForm du qt box0 sched out).2 =
        pre ++ [Event.clearTimeoutEv, Event.clearIntervalEv, Event.renderEv h]) ∧
    (submitForm du qt box0 sched out).1.intervalActive = false ∧
    (submitForm du qt box0 sched out).1.timeoutActive = false ∧
    ∀ sched2, runAwait (submitForm du qt box0 sched out).1 sched2 =
      (submitForm du qt box0 sched out).1 := by
  have hne : ¬(du = "" ∨ qt = "") := not_or.mpr ⟨hdu, hqt⟩
  have heq : submitForm du qt box0 sched out = submitRun du qt sched out := by
    simp only [submitForm, if_neg hne]
  rw [heq]
  obtain ⟨pre, hh, htail⟩ := finishPhase_tail (runAwait startState sched) out
  have hi : (submitRun du qt sched out).1.intervalActive = false :=
    (finishPhase_flags (runAwait startState sched) out).1
  have ht : (submitRun du qt sched out).1.timeoutActive = false :=
    (finishPhase_flags (runAwait startState sched) out).2
  refine ⟨⟨[Event.renderEv (render (.thinking "0s")), Event.setIntervalEv 1000,
            Event.setTimeoutEv 5000, Event.fetchEv (theRequest du qt)] ++ pre, hh, ?_⟩,
          hi, ht, fun sched2 => runAwait_inactive _ hi ht sched2⟩
  rw [submitRun_trace, htail, List.append_assoc]

/-- Witness for C4 on the network-error exit path. -/
theorem claim4_witness :
    (∃ pre h, (submitForm "u" "q" (.initial "") [] (.thrown ⟨false, "m"⟩)).2 =
        pre ++ [Event.clearTimeoutEv, Event.clearIntervalEv, Event.renderEv h]) ∧
    (submitForm "u" "q" (.initial "") [] (.thrown ⟨false, "m"⟩)).1.intervalActive = false ∧
    (submitForm "u" "q" (.initial "") [] (.thrown ⟨false, "m"⟩)).1.timeoutActive = false ∧
    ∀ sched2, runAwait (submitForm "u" "q" (.initial "") [] (.thrown ⟨false, "m"⟩)).1 sched2 =
      (submitForm "u" "q" (.initial "") [] (.thrown ⟨false, "m"⟩)).1 :=
  claim4_timers_cancelled "u" "q" (.initial "") [] (.thrown ⟨false, "m"⟩)
    (by decide) (by decide)

/-- Claim C5: a caught `TypeError` whose message includes the fetch failure
phrase renders the fixed connectivity message, any other caught error renders
that error's message, and in both cases the error is logged once to the
console; the pre-flight validation error only alerts and logs nothing. -/
theorem claim5_error_rendering :
    (∀ (du qt : String) (box0 : BoxContent) (sched : List AsyncEv) (err : JsError),
      du ≠ "" → qt ≠ "" →
      consoleErrorsOf (submitForm du qt box0 sched (.thrown err)).2 = [err] ∧
      (submitForm du qt box0 sched (.thrown err)).1.box =
        (if err.isTypeError && jsIncludes err.message "Failed to fetch" then
          BoxContent.connectError
        else BoxContent.errorBox err.message)) ∧
    (∀ (du qt : String) (box0 : BoxContent) (sched : List AsyncEv) (out : FetchOutcome),
      (du = "" ∨ qt = "") →
      consoleErrorsOf (submitForm du qt box0 sched out).2 = [] ∧
      alertsOf (submitForm du qt box0 sched out).2 = [validationAlert]) := by
  constructor
  · intro du qt box0 sched err hdu hqt
    have hne : ¬(du = "" ∨ qt = "") := not_or.mpr ⟨hdu, hqt⟩
    have heq : submitForm du qt box0 sched (.thrown err) =
        submitRun du qt sched (.thrown err) := by
      simp only [submitForm, if_neg hne]
    rw [heq]
    exact ⟨rfl, rfl⟩
  · intro du qt box0 sched out h
    have heq : submitForm du qt box0 sched out =
        ({ box := box0, timer := 0, intervalActive := false, timeoutActive := false },
         [Event.alertEv validationAlert]) := by
      simp only [submitForm, if_pos h]
    rw [heq]
    exact ⟨rfl, rfl⟩

/-- Witness for C5: a fetch-style `TypeError` renders the connectivity message
and is logged, while the validation path only alerts. -/
theorem claim5_witness :
    (consoleErrorsOf (submitForm "u" "q" (.initial "") []
        (.thrown ⟨true, "TypeError: Failed to fetch"⟩)).2 =
      [⟨true, "TypeError: Failed to fetch"⟩] ∧
      (submitForm "u" "q" (.initial "") []
          (.thrown ⟨true, "TypeError: Failed to fetch"⟩)).1.box =
        (if (true && jsIncludes "TypeError: Failed to fetch" "Failed to fetch" : Bool) then
          BoxContent.connectError
        else BoxContent.errorBox "TypeError: Failed to fetch")) ∧
    (submitForm "u" "q" (.initial "") []
        (.thrown ⟨true, "TypeError: Failed to fetch"⟩)).1.box = BoxContent.connectError ∧
    consoleErrorsOf (submitForm "" "q" (.initial "") [] (.thrown ⟨false, "m"⟩)).2 = [] ∧
    alertsOf (submitForm "" "q" (.initial "") [] (.thrown ⟨false, "m"⟩)).2 = [validationAlert] :=
  ⟨claim5_error_rendering.1 "u" "q" (.initial "") [] ⟨true, "TypeError: Failed to fetch"⟩
      (by decide) (by decide),
   rfl,
   (claim5_error_rendering.2 "" "q" (.initial "") [] (.thrown ⟨false, "m"⟩) (Or.inl rfl)).1,
   (claim5_error_rendering.2 "" "q" (.initial "") [] (.thrown ⟨false, "m"⟩) (Or.inl rfl)).2⟩

/-- Counterexample for C6: on a simulated HTTP error with body
`"server exploded"`, the rendered error message is
`"Query failed: server exploded"`, not the raw body text. -/
theorem claim6_counterexample :
    errMsgOf (submitForm "u" "q" (.initial "") []
        (.responded ⟨false, "server exploded", .fail "x"⟩)).1.box =
      some "Query failed: server exploded" ∧
    errMsgOf (submitForm "u" "q" (.initial "") []
        (.responded ⟨false, "server exploded", .fail "x"⟩)).1.box ≠
      some "server exploded" := by
  refine ⟨rfl, ?_⟩
  intro h
  have h2 : some "Query failed: server exploded" = some "server exploded" :=
    (show errMsgOf (submitForm "u" "q" (.initial "") []
        (.responded ⟨false, "server exploded", .fail "x"⟩)).1.box =
      some "Query failed: server exploded" from rfl).symm.trans h
  exact absurd (Option.some.inj h2) (by decide)

/-- Claim C6 (amended): a non-success HTTP response is turned into an error
whose message is `"Query failed: "` followed by the raw response body text, and
the rendered error output contains the body text (so for a simulated 500 with
body `"server exploded"` the output contains `"server exploded"`). -/
theorem claim6_http_error (du qt : String) (box0 : BoxContent) (sched : List AsyncEv)
    (bt : String) (js : JsonResult) (hdu : du ≠ "") (hqt : qt ≠ "") :
    (submitForm du qt box0 sched (.responded ⟨false, bt, js⟩)).1.box =
      BoxContent.errorBox ("Query failed: " ++ bt) ∧
    jsIncludes (render (submitForm du qt box0 sched
        (.responded ⟨false, bt, js⟩)).1.box) bt = true := by
  have hne : ¬(du = "" ∨ qt = "") := not_or.mpr ⟨hdu, hqt⟩
  have heq : submitForm du qt box0 sched (.responded ⟨false, bt, js⟩) =
      submitRun du qt sched (.responded ⟨false, bt, js⟩) := by
    simp only [submitForm, if_neg hne]
  rw [heq]
  have hbox : (submitRun du qt sched (.responded ⟨false, bt, js⟩)).1.box =
      BoxContent.errorBox ("Query failed: " ++ bt) := rfl
  refine ⟨hbox, ?_⟩
  rw [hbox]
  exact jsIncludes_suffix "<b style=\"color:red\">❌ Error:</b> " "Query failed: " bt

/-- Witness for C6 at the simulated 500 with body `"server exploded"`. -/
theorem claim6_witness :
    (submitForm "u" "q" (.initial "") []
        (.responded ⟨false, "server exploded", .fail "x"⟩)).1.box =
      BoxContent.errorBox ("Query failed: " ++ "server exploded") ∧
    jsIncludes (render (submitForm "u" "q" (.initial "") []
        (.responded ⟨false, "server exploded", .fail "x"⟩)).1.box) "server exploded" = true :=
  claim6_http_error "u" "q" (.initial "") [] "server exploded" (.fail "x")
    (by decide) (by decide)

/-- Claim C7: on a success response with parsable JSON, the final box is the
answer markup carrying the timer's final value and the parsed data, and its
rendering is the pretty-printed JSON inside a `<pre>` block preceded by the
elapsed-seconds line. -/
theorem claim7_success_render (du qt : String) (box0 : BoxContent) (sched : List AsyncEv)
    (bt : String) (data : Json) (hdu : du ≠ "") (hqt : qt ≠ "") :
    (submitForm du qt box0 sched (.responded ⟨true, bt, .ok data⟩)).1.box =
      BoxContent.answerBox (runAwait startState sched).timer data ∧
    render (BoxContent.answerBox (runAwait startState sched).timer data) =
      "<div style=\"margin-bottom:8px;color:var(--accent);font-size:0.98em;\">⏱️ Answer loaded in <b>" ++
        toString (runAwait startState sched).timer ++ "s</b></div><pre>" ++
        stringify2 0 data ++ "</pre>" := by
  have hne : ¬(du = "" ∨ qt = "") := not_or.mpr ⟨hdu, hqt⟩
  have heq : submitForm du qt box0 sched (.responded ⟨true, bt, .ok data⟩) =
      submitRun du qt sched (.responded ⟨true, bt, .ok data⟩) := by
    simp only [submitForm, if_neg hne]
  rw [heq]
  exact ⟨rfl, rfl⟩

/-- Witness for C7: a 200 response with body `\x7b"answers":["x"]\x7d` after one
tick renders pretty JSON containing `"answers"` and `"x"`, preceded by the
elapsed-time line `1s`. -/
theorem claim7_witness :
    (submitForm "u" "q" (.initial "") [.tick]
        (.responded ⟨true, "", .ok sampleAnswers⟩)).1.box =
      BoxContent.answerBox (runAwait startState [.tick]).timer sampleAnswers ∧
    jsIncludes (render (BoxContent.answerBox (runAwait startState [.tick]).timer sampleAnswers))
      "\"answers\"" = true ∧
    jsIncludes (render (BoxContent.answerBox (runAwait startState [.tick]).timer sampleAnswers))
      "\"x\"" = true ∧
    jsIncludes (render (BoxContent.answerBox (runAwait startState [.tick]).timer sampleAnswers))
      "Answer loaded in <b>1s</b>" = true :=
  ⟨(claim7_success_render "u" "q" (.initial "") [.tick] "" sampleAnswers
      (by decide) (by decide)).1,
   by decide, by decide, by decide⟩

/-- Claim C8: after validation the handler renders the thinking markup and
registers the 1000 ms interval and 5000 ms one-shot; the one-shot replaces the
box with the still-working markup that still carries the elapsed-seconds span;
`k` interval ticks show `"ks"` in the span; and ticks continue updating the
span after the one-shot has fired. -/
theorem claim8_loading_protocol :
    (∀ (du qt : String) (box0 : BoxContent) (sched : List AsyncEv) (out : FetchOutcome),
      du ≠ "" → qt ≠ "" →
      (submitForm du qt box0 sched out).2.take 3 =
        [Event.renderEv (render (.thinking "0s")), Event.setIntervalEv 1000,
         Event.setTimeoutEv 5000]) ∧
    (∀ s : HandlerState, s.timeoutActive = true →
      (awaitStep s .timeoutFire).box = BoxContent.stillWorking (toString s.timer ++ "s") ∧
      timerSpanText (awaitStep s .timeoutFire).box = some (toString s.timer ++ "s")) ∧
    (∀ k : Nat, runAwait startState (List.replicate k .tick) =
      ⟨.thinking (toString k ++ "s"), k, true, true⟩) ∧
    (∀ j k : Nat,
      runAwait startState (List.replicate j .tick ++ .timeoutFire :: List.replicate k .tick) =
        ⟨.stillWorking (toString (j + k) ++ "s"), j + k, true, false⟩) := by
  refine ⟨?_, ?_, ?_, ?_⟩
  · intro du qt box0 sched out hdu hqt
    have hne : ¬(du = "" ∨ qt = "") := not_or.mpr ⟨hdu, hqt⟩
    have heq : submitForm du qt box0 sched out = submitRun du qt sched out := by
      simp only [submitForm, if_neg hne]
    rw [heq]
    rfl
  · intro s hs
    constructor
    · simp [awaitStep, hs, updateTimer, timerSpanText, setTimerSpan]
    · simp [awaitStep, hs, updateTimer, timerSpanText, setTimerSpan]
  · intro k
    have h := runAwait_ticks_thinking k 0 true
    rw [Nat.zero_add] at h
    exact h
  · intro j k
    rw [runAwait, List.foldl_append]
    have hj := runAwait_ticks_thinking j 0 true
    rw [Nat.zero_add] at hj
    have hj2 : List.foldl awaitStep startState (List.replicate j AsyncEv.tick) =
        ⟨.thinking (toString j ++ "s"), j, true, true⟩ := hj
    rw [hj2, List.foldl_cons]
    have hf : awaitStep ⟨.thinking (toString j ++ "s"), j, true, true⟩ .timeoutFire =
        ⟨.stillWorking (toString j ++ "s"), j, true, false⟩ := by
      simp [awaitStep, updateTimer, timerSpanText, setTimerSpan]
    rw [hf]
    have hk : List.foldl awaitStep
        (⟨.stillWorking (toString j ++ "s"), j, true, false⟩ : HandlerState)
        (List.replicate k AsyncEv.tick) =
        ⟨.stillWorking (toString (j + k) ++ "s"), j + k, true, false⟩ :=
      runAwait_ticks_still k j false
    rw [hk]

/-- Witness for C8 with one tick, the one-shot firing, then three more ticks. -/
theorem claim8_witness :
    (submitForm "u" "q" (.initial "") [] (.thrown ⟨false, "m"⟩)).2.take 3 =
      [Event.renderEv (render (.thinking "0s")), Event.setIntervalEv 1000,
       Event.setTimeoutEv 5000] ∧
    (awaitStep startState .timeoutFire).box =
      BoxContent.stillWorking (toString startState.timer ++ "s") ∧
    runAwait startState (List.replicate 2 .tick) =
      ⟨.thinking (toString 2 ++ "s"), 2, true, true⟩ ∧
    runAwait startState (List.replicate 1 .tick ++ .timeoutFire :: List.replicate 3 .tick) =
      ⟨.stillWorking (toString (1 + 3) ++ "s"), 1 + 3, true, false⟩ :=
  ⟨claim8_loading_protocol.1 "u" "q" (.initial "") [] (.thrown ⟨false, "m"⟩)
      (by decide) (by decide),
   (claim8_loading_protocol.2.1 startState rfl).1,
   claim8_loading_protocol.2.2.1 2,
   claim8_loading_protocol.2.2.2 1 3⟩
